import Mathlib

/-!
# Verification of the GeoJSON → GPX converter (`src/index.ts`)

Shallow embedding of the single-file converter `GeoJsonToGpx`.  JavaScript
numbers are modelled as `Int` (the claims only use numbers through the
`String(·)` conversion, which is modelled as `toString`); the DOM element
tree is modelled by the inductive `Gpx.Element`; JavaScript property bags
are association lists of `Gpx.PropValue`, with `undefined` modelled by
`Option` and JS truthiness modelled explicitly.
-/

namespace Gpx

/-- A JavaScript value that `createTagInParentElement` may receive as
`content`: `string | number` (with `undefined` handled by `Option`). -/
inductive JsVal where
  | str (s : String)
  | num (n : Int)
deriving DecidableEq, Repr

/-- JavaScript `String(v)` on a defined `string | number` value. -/
def JsVal.toJsString : JsVal → String
  | .str s => s
  | .num n => toString n

/-- JavaScript `String(v)` where `v` may be `undefined`
(`String(undefined) = "undefined"`). -/
def jsStringOfOptInt : Option Int → String
  | none => "undefined"
  | some n => toString n

/-- A value stored in a free-form GeoJSON property bag. -/
inductive PropValue where
  | str (s : String)
  | num (n : Int)
  | boolean (b : Bool)
  | obj
  | nullV
deriving DecidableEq, Repr

/-- JavaScript truthiness of a property value. -/
def PropValue.isTruthy : PropValue → Bool
  | .str s => s ≠ ""
  | .num n => n ≠ 0
  | .boolean b => b
  | .obj => true
  | .nullV => false

/-- JavaScript `typeof v === 'string'`. -/
def PropValue.isString : PropValue → Bool
  | .str _ => true
  | _ => false

/-- A free-form property bag (`GeoJsonProperties` object, keys unique). -/
def Bag := List (String × PropValue)

/-- `GeoJsonProperties` is `{[k]: any} | null`; with an absent argument this
is `none` (the source skips copying for `null`/`undefined` alike). -/
def GeoJsonProperties := Option Bag

/-- A DOM element: tag name, attributes in insertion order, child elements
in insertion order, and optional text content (leaf tags). -/
inductive Element where
  | mk (tag : String) (attrs : List (String × String))
       (children : List Element) (textContent : Option String)

def Element.tag : Element → String
  | .mk t _ _ _ => t

def Element.attrs : Element → List (String × String)
  | .mk _ a _ _ => a

def Element.children : Element → List Element
  | .mk _ _ c _ => c

def Element.textContent : Element → Option String
  | .mk _ _ _ x => x

/-- `el.getAttribute(k)` (attributes are unique per element here). -/
def Element.getAttr (e : Element) (k : String) : Option String :=
  e.attrs.lookup k

/-- `el.appendChild` for a batch of children, preserving order. -/
def Element.appendChildren : Element → List Element → Element
  | .mk t a c x, cs => .mk t a (c ++ cs) x

mutual
/-- Number of elements with tag `t` in the whole subtree rooted at `e`. -/
def Element.countTag (t : String) : Element → Nat
  | .mk tag _ children _ =>
      (if tag = t then 1 else 0) + countTagList t children

/-- Number of elements with tag `t` in a forest. -/
def countTagList (t : String) : List Element → Nat
  | [] => 0
  | e :: es => e.countTag t + countTagList t es
end

/-- The returned `XMLDocument`: the `xml` processing instruction and the
single `gpx` root element. -/
structure XMLDocument where
  instruction : String × String
  root : Element

/-! ## Input data model (from `src/index.ts` declarations and `geojson`) -/

/-- A GeoJSON `Position`: `[longitude, latitude, elevation?, time?]`,
numbers modelled as `Int`. -/
def Position := List Int

structure Bounds where
  minlat : Option String := none
  minlon : Option String := none
  maxlat : Option String := none
  maxlon : Option String := none

structure Copyright where
  author : Option String := none
  year : Option String := none
  license : Option String := none

structure Link where
  href : Option String := none
  text : Option String := none
  type : Option String := none

structure Person where
  name : Option String := none
  email : Option String := none
  link : Option Link := none

structure MetaData where
  name : Option String := none
  desc : Option String := none
  author : Option Person := none
  copyright : Option Copyright := none
  link : Option Link := none
  time : Option String := none
  keywords : Option String := none
  bounds : Option Bounds := none

structure Options where
  creator : Option String := none
  version : Option String := none
  metadata : Option MetaData := none

/-- Geometry of an input feature, a tagged union over `geometry.type`. -/
inductive Geometry where
  | point (coordinates : Position)
  | multiPoint (coordinates : List Position)
  | lineString (coordinates : List Position)
  | multiLineString (coordinates : List (List Position))
  | polygon (coordinates : List (List Position))
  | otherGeom

structure Feature where
  geometry : Geometry
  properties : GeoJsonProperties

/-- Top-level input: `Feature | FeatureCollection` (plus any other
`type` tag, which the top-level `switch` sends to `default: break`). -/
inductive GeoJson where
  | feature (f : Feature)
  | featureCollection (features : List Feature)
  | otherInput

/-! ## The converter, translated function by function from `src/index.ts` -/

def defaultPackageName : String := "@dwayneparton/geojson-to-gpx"

/-- `createTagInParentElement`: returns the list of elements it appends to
the parent (empty when `content === undefined`; otherwise one leaf holding
`String(content)` as text). -/
def createTagInParentElement (tagName : String) (content : Option JsVal) :
    List Element :=
  match content with
  | none => []
  | some c => [Element.mk tagName [] [] (some c.toJsString)]

/-- JavaScript `String(v)` on a property value (only the string arm is
reachable under the `typeof value === 'string'` guard). -/
def PropValue.asJsVal : PropValue → JsVal
  | .str s => .str s
  | .num n => .num n
  | .boolean b => .str (if b then "true" else "false")
  | .obj => .str "[object Object]"
  | .nullV => .str "null"

/-- The `supports.forEach` loop body of `addSupportedPropertiesFromObject`:
walks the keys in order, looking each up in the bag and emitting a leaf
when the value is truthy, string-typed, and the key is in `supports`. -/
def copySupportedProperties (supports : List String) (bag : Bag) :
    List String → List Element
  | [] => []
  | key :: keys =>
      (match bag.lookup key with
       | some v =>
           if v.isTruthy && v.isString && supports.contains key then
             createTagInParentElement key (some v.asJsVal)
           else []
       | none => []) ++ copySupportedProperties supports bag keys

/-- `addSupportedPropertiesFromObject`: nothing is copied when
`properties` is `null`/`undefined`; otherwise the whitelist keys are
walked in order. -/
def addSupportedPropertiesFromObject (supports : List String)
    (properties : GeoJsonProperties) : List Element :=
  match properties with
  | none => []
  | some bag => copySupportedProperties supports bag supports

/-- A `Link` object viewed as the property bag that
`createLinkInParentElement` hands to `addSupportedPropertiesFromObject`. -/
def Link.toBag (l : Link) : Bag :=
  (match l.href with | some h => [("href", PropValue.str h)] | none => []) ++
  (match l.text with | some t => [("text", PropValue.str t)] | none => []) ++
  (match l.type with | some t => [("type", PropValue.str t)] | none => [])

/-- `createLinkInParentElement`: the list of elements appended to the
parent — empty when `href` is falsy, else one `link` element. -/
def createLinkInParentElement (props : Link) : List Element :=
  match props.href with
  | none => []
  | some href =>
      if href = "" then []
      else
        [Element.mk "link" [("href", href)]
          (addSupportedPropertiesFromObject ["text", "type"]
            (some props.toBag)) none]

/-- The `if (x && typeof x === 'object') createLinkInParentElement(parent, x)`
pattern used for `meta.link` and `meta.author.link`: the elements appended
for an optional `Link`. -/
def linkChunk (L : Option Link) : List Element :=
  match L with
  | some l => createLinkInParentElement l
  | none => []

/-- `createTrk`. -/
def createTrk (properties : GeoJsonProperties) : Element :=
  Element.mk "trk" []
    (addSupportedPropertiesFromObject ["name", "desc", "src", "type"]
      properties) none

/-- `createPt`: destructures `[lon, lat, ele, time]` from the position,
sets `lat`/`lon` attributes via `String(·)`, and appends `ele`/`time`
leaves then whitelisted property leaves. -/
def createPt (type_ : String) (position : Position)
    (properties : GeoJsonProperties) : Element :=
  let lon := position.get? 0
  let lat := position.get? 1
  let ele := position.get? 2
  let time := position.get? 3
  Element.mk type_
    [("lat", jsStringOfOptInt lat), ("lon", jsStringOfOptInt lon)]
    (createTagInParentElement "ele" (ele.map JsVal.num) ++
     createTagInParentElement "time" (time.map JsVal.num) ++
     addSupportedPropertiesFromObject ["name", "desc", "src", "type"]
       properties)
    none

/-- `createTrkSeg`: one `trkpt` per position, in array order, with no
per-point properties. -/
def createTrkSeg (coordinates : List Position) : Element :=
  Element.mk "trkseg" []
    (coordinates.map (fun point => createPt "trkpt" point none)) none

/-- `interpretFeature`: returns the pair (elements pushed onto `wpts`,
elements pushed onto `trks`) for one feature. -/
def interpretFeature (feature : Feature) : List Element × List Element :=
  match feature.geometry with
  | .polygon _ => ([], [])
  | .point coordinates =>
      ([createPt "wpt" coordinates feature.properties], [])
  | .multiPoint coordinates =>
      (coordinates.map (fun coord => createPt "wpt" coord feature.properties),
       [])
  | .lineString coordinates =>
      ([], [(createTrk feature.properties).appendChildren
              [createTrkSeg coordinates]])
  | .multiLineString coordinates =>
      ([], [(createTrk feature.properties).appendChildren
              (coordinates.map (fun pos => createTrkSeg pos))])
  | .otherGeom => ([], [])

/-- `options?.creator || defaultPackageName` (JS `||` falls back on the
empty string too). -/
def creatorOf (options : Option Options) : String :=
  match options with
  | none => defaultPackageName
  | some o =>
      match o.creator with
      | none => defaultPackageName
      | some c => if c = "" then defaultPackageName else c

/-- The `metadata` element assembled from `options.metadata` when that
field is an object (the `if (options && typeof options.metadata ===
'object')` block of `GeoJsonToGpx`). -/
def buildMetadata (meta : MetaData) : Element :=
  Element.mk "metadata" []
    (createTagInParentElement "name" (meta.name.map JsVal.str) ++
     createTagInParentElement "desc" (meta.desc.map JsVal.str) ++
     (match meta.author with
      | some person =>
          [Element.mk "author" []
            (createTagInParentElement "name" (person.name.map JsVal.str) ++
             createTagInParentElement "email" (person.email.map JsVal.str) ++
             linkChunk person.link) none]
      | none => []) ++
     (match meta.copyright with
      | some c =>
          [Element.mk "copyright"
            (match c.author with
             | some a => if a ≠ "" then [("author", a)] else []
             | none => [])
            (createTagInParentElement "year" (c.year.map JsVal.str) ++
             createTagInParentElement "license"
               (c.license.map JsVal.str)) none]
      | none => []) ++
     linkChunk meta.link ++
     createTagInParentElement "time" (meta.time.map JsVal.str) ++
     createTagInParentElement "keywords" (meta.keywords.map JsVal.str))
    none

/-- The two element buffers (`wpts`, `trks`) after processing the whole
input (the top-level `switch (type)` of `GeoJsonToGpx`). -/
def collectFeatures (geoJson : GeoJson) : List Element × List Element :=
  match geoJson with
  | .feature f => interpretFeature f
  | .featureCollection features =>
      features.foldl
        (fun acc f =>
          let r := interpretFeature f
          (acc.1 ++ r.1, acc.2 ++ r.2))
        ([], [])
  | .otherInput => ([], [])

/-- `GeoJsonToGpx`, the sole export of `src/index.ts`. -/
def GeoJsonToGpx (geoJson : GeoJson) (options : Option Options) :
    XMLDocument :=
  let creator := creatorOf options
  let metadataChildren : List Element :=
    match options with
    | some o =>
        match o.metadata with
        | some meta => [buildMetadata meta]
        | none => []
    | none => []
  let buffers := collectFeatures geoJson
  let gpx : Element :=
    Element.mk "gpx" [("version", "1.1"), ("creator", creator)]
      (metadataChildren ++ buffers.1 ++ buffers.2) none
  ⟨("xml", "version=\"1.0\" encoding=\"UTF-8\""), gpx⟩

/-- Written from the specification's wording for the metadata assembler
(to be compared against `buildMetadata`): the expected tags of the
`metadata` element's children, in order — `name` (if defined), `desc` (if
defined), `author` (if an object), `copyright` (if an object), `link` (if
an object with non-empty `href`), `time` (if defined), `keywords` (if
defined); `bounds` contributes nothing. -/
def specLinkTags (L : Option Link) : List String :=
  match L with
  | some l =>
      match l.href with
      | some h => if h ≠ "" then ["link"] else []
      | none => []
  | none => []

def specMetadataChildTags (meta : MetaData) : List String :=
  (match meta.name with | some _ => ["name"] | none => []) ++
  (match meta.desc with | some _ => ["desc"] | none => []) ++
  (match meta.author with | some _ => ["author"] | none => []) ++
  (match meta.copyright with | some _ => ["copyright"] | none => []) ++
  specLinkTags meta.link ++
  (match meta.time with | some _ => ["time"] | none => []) ++
  (match meta.keywords with | some _ => ["keywords"] | none => [])

/-! ## Helper lemmas -/

theorem mem_copySupportedProperties {supports keys : List String}
    {bag : Bag} {e : Element}
    (he : e ∈ copySupportedProperties supports bag keys) :
    e.tag ∈ keys ∧ ∃ s : String,
      bag.lookup e.tag = some (.str s) ∧ s ≠ "" ∧
      e = Element.mk e.tag [] [] (some s) := by
  induction keys with
  | nil => simp [copySupportedProperties] at he
  | cons key keys ih =>
    rw [copySupportedProperties] at he
    rcases List.mem_append.mp he with h1 | h2
    · cases hl : bag.lookup key with
      | none => rw [hl] at h1; simp at h1
      | some v =>
        rw [hl] at h1
        dsimp only at h1
        by_cases hc : (v.isTruthy && v.isString && supports.contains key) = true
        · rw [if_pos hc] at h1
          cases v with
          | str s =>
            simp [createTagInParentElement, PropValue.asJsVal,
              JsVal.toJsString] at h1
            subst h1
            refine ⟨List.mem_cons_self _ _, s, ?_, ?_, rfl⟩
            · simpa [Element.tag] using hl
            · simp [PropValue.isTruthy] at hc
              exact hc.1.1
          | num n => simp [PropValue.isString] at hc
          | boolean b => simp [PropValue.isString] at hc
          | obj => simp [PropValue.isString] at hc
          | nullV => simp [PropValue.isString] at hc
        · rw [if_neg hc] at h1; simp at h1
    · obtain ⟨hk, hs⟩ := ih h2
      exact ⟨List.mem_cons_of_mem _ hk, hs⟩

theorem mem_addSupported {supports : List String} {props : GeoJsonProperties}
    {e : Element} (he : e ∈ addSupportedPropertiesFromObject supports props) :
    e.tag ∈ supports := by
  cases props with
  | none => simp [addSupportedPropertiesFromObject] at he
  | some bag =>
    exact (mem_copySupportedProperties he).1

theorem map_tag_createTag (t : String) (c : Option JsVal) :
    (createTagInParentElement t c).map Element.tag =
      match c with | none => [] | some _ => [t] := by
  cases c <;> rfl

theorem map_tag_createLink (l : Link) :
    (createLinkInParentElement l).map Element.tag =
      match l.href with
      | none => []
      | some h => if h ≠ "" then ["link"] else [] := by
  rcases l with ⟨href, text, type⟩
  cases href with
  | none => rfl
  | some h =>
    by_cases hh : h = "" <;>
      simp [createLinkInParentElement, hh, Element.tag]

theorem collect_foldl (features : List Feature) (w t : List Element) :
    features.foldl
      (fun acc f =>
        let r := interpretFeature f
        (acc.1 ++ r.1, acc.2 ++ r.2)) (w, t) =
    (w ++ (features.map fun f => (interpretFeature f).1).flatten,
     t ++ (features.map fun f => (interpretFeature f).2).flatten) := by
  induction features generalizing w t with
  | nil => simp
  | cons f fs ih => simp [List.foldl_cons, ih, List.append_assoc]

theorem collectFeatures_featureCollection (features : List Feature) :
    collectFeatures (.featureCollection features) =
      ((features.map fun f => (interpretFeature f).1).flatten,
       (features.map fun f => (interpretFeature f).2).flatten) := by
  simp [collectFeatures, collect_foldl]

theorem wpt_tag_of_mem {f : Feature} {e : Element}
    (he : e ∈ (interpretFeature f).1) : e.tag = "wpt" := by
  rcases f with ⟨geom, props⟩
  cases geom with
  | point c =>
    simp [interpretFeature] at he; subst he; rfl
  | multiPoint cs =>
    simp [interpretFeature] at he
    obtain ⟨c, _, rfl⟩ := he; rfl
  | lineString cs => simp [interpretFeature] at he
  | multiLineString cs => simp [interpretFeature] at he
  | polygon cs => simp [interpretFeature] at he
  | otherGeom => simp [interpretFeature] at he

theorem trk_tag_of_mem {f : Feature} {e : Element}
    (he : e ∈ (interpretFeature f).2) : e.tag = "trk" := by
  rcases f with ⟨geom, props⟩
  cases geom with
  | point c => simp [interpretFeature] at he
  | multiPoint cs => simp [interpretFeature] at he
  | lineString cs =>
    simp [interpretFeature] at he; subst he; rfl
  | multiLineString cs =>
    simp [interpretFeature] at he; subst he; rfl
  | polygon cs => simp [interpretFeature] at he
  | otherGeom => simp [interpretFeature] at he

theorem mem_collect_wpts {g : GeoJson} {e : Element}
    (he : e ∈ (collectFeatures g).1) : ∃ f, e ∈ (interpretFeature f).1 := by
  cases g with
  | feature f => exact ⟨f, he⟩
  | featureCollection features =>
    rw [collectFeatures_featureCollection] at he
    obtain ⟨l, hl, hel⟩ := List.mem_flatten.mp he
    obtain ⟨f, _, rfl⟩ := List.mem_map.mp hl
    exact ⟨f, hel⟩
  | otherInput => simp [collectFeatures] at he

theorem mem_collect_trks {g : GeoJson} {e : Element}
    (he : e ∈ (collectFeatures g).2) : ∃ f, e ∈ (interpretFeature f).2 := by
  cases g with
  | feature f => exact ⟨f, he⟩
  | featureCollection features =>
    rw [collectFeatures_featureCollection] at he
    obtain ⟨l, hl, hel⟩ := List.mem_flatten.mp he
    obtain ⟨f, _, rfl⟩ := List.mem_map.mp hl
    exact ⟨f, hel⟩
  | otherInput => simp [collectFeatures] at he

theorem countTag_mk (t tag : String) (a : List (String × String))
    (c : List Element) (x : Option String) :
    (Element.mk tag a c x).countTag t =
      (if tag = t then 1 else 0) + countTagList t c := by
  rw [Element.countTag]

theorem countTagList_append (t : String) (xs ys : List Element) :
    countTagList t (xs ++ ys) = countTagList t xs + countTagList t ys := by
  induction xs with
  | nil => simp [countTagList]
  | cons e es ih => simp [countTagList, ih, Nat.add_assoc]

theorem countTagList_eq_zero {t : String} {l : List Element}
    (h : ∀ e ∈ l, e.countTag t = 0) : countTagList t l = 0 := by
  induction l with
  | nil => rfl
  | cons e es ih =>
    rw [countTagList, h e (List.mem_cons_self _ _),
      ih fun x hx => h x (List.mem_cons_of_mem _ hx)]

theorem countTag_createTagList {t tag : String} {c : Option JsVal}
    (h : tag ≠ t) : countTagList t (createTagInParentElement tag c) = 0 := by
  cases c <;> simp [createTagInParentElement, countTagList, countTag_mk, h]

theorem countTag_copySupported_zero {t : String} {supports keys : List String}
    {bag : Bag} (h : t ∉ keys) :
    countTagList t (copySupportedProperties supports bag keys) = 0 := by
  apply countTagList_eq_zero
  intro e he
  obtain ⟨hk, s, _, _, he2⟩ := mem_copySupportedProperties he
  rw [he2, countTag_mk]
  have : e.tag ≠ t := fun h2 => h (h2 ▸ hk)
  simp [this, countTagList]

theorem countTag_addSupported_zero {t : String} {supports : List String}
    {props : GeoJsonProperties} (h : t ∉ supports) :
    countTagList t (addSupportedPropertiesFromObject supports props) = 0 := by
  cases props with
  | none => rfl
  | some bag => exact countTag_copySupported_zero h

theorem countTag_appendChildren (t : String) (e : Element)
    (cs : List Element) :
    (e.appendChildren cs).countTag t = e.countTag t + countTagList t cs := by
  cases e with
  | mk tag a c x =>
    rw [Element.appendChildren, countTag_mk, countTag_mk,
      countTagList_append, Nat.add_assoc]

theorem countTag_metadata_createPt (ty : String) (pos : Position)
    (props : GeoJsonProperties) (h : ty ≠ "metadata") :
    (createPt ty pos props).countTag "metadata" = 0 := by
  rw [createPt, countTag_mk, if_neg h, countTagList_append,
    countTagList_append,
    countTag_createTagList (by decide), countTag_createTagList (by decide),
    countTag_addSupported_zero (by decide)]

theorem countTag_metadata_createTrkSeg (coords : List Position) :
    (createTrkSeg coords).countTag "metadata" = 0 := by
  rw [createTrkSeg, countTag_mk, if_neg (by decide)]
  simp only [Nat.zero_add]
  apply countTagList_eq_zero
  intro e he
  obtain ⟨p, _, rfl⟩ := List.mem_map.mp he
  exact countTag_metadata_createPt _ _ _ (by decide)

theorem countTag_metadata_createTrk (props : GeoJsonProperties) :
    (createTrk props).countTag "metadata" = 0 := by
  rw [createTrk, countTag_mk, if_neg (by decide),
    countTag_addSupported_zero (by decide)]

theorem countTag_metadata_wpts {f : Feature} {e : Element}
    (he : e ∈ (interpretFeature f).1) : e.countTag "metadata" = 0 := by
  rcases f with ⟨geom, props⟩
  cases geom with
  | point c =>
    simp [interpretFeature] at he; subst he
    exact countTag_metadata_createPt _ _ _ (by decide)
  | multiPoint cs =>
    simp [interpretFeature] at he
    obtain ⟨c, _, rfl⟩ := he
    exact countTag_metadata_createPt _ _ _ (by decide)
  | lineString cs => simp [interpretFeature] at he
  | multiLineString cs => simp [interpretFeature] at he
  | polygon cs => simp [interpretFeature] at he
  | otherGeom => simp [interpretFeature] at he

theorem countTag_metadata_trks {f : Feature} {e : Element}
    (he : e ∈ (interpretFeature f).2) : e.countTag "metadata" = 0 := by
  rcases f with ⟨geom, props⟩
  cases geom with
  | point c => simp [interpretFeature] at he
  | multiPoint cs => simp [interpretFeature] at he
  | lineString cs =>
    simp [interpretFeature] at he; subst he
    rw [countTag_appendChildren, countTag_metadata_createTrk, countTagList,
      countTag_metadata_createTrkSeg, countTagList]
  | multiLineString cs =>
    simp [interpretFeature] at he; subst he
    rw [countTag_appendChildren, countTag_metadata_createTrk]
    simp only [Nat.zero_add]
    apply countTagList_eq_zero
    intro x hx
    obtain ⟨p, _, rfl⟩ := List.mem_map.mp hx
    exact countTag_metadata_createTrkSeg p
  | polygon cs => simp [interpretFeature] at he
  | otherGeom => simp [interpretFeature] at he

theorem countTag_metadata_collect (g : GeoJson) :
    countTagList "metadata"
      ((collectFeatures g).1 ++ (collectFeatures g).2) = 0 := by
  rw [countTagList_append,
    countTagList_eq_zero fun e he =>
      countTag_metadata_wpts (mem_collect_wpts he).choose_spec,
    countTagList_eq_zero fun e he =>
      countTag_metadata_trks (mem_collect_trks he).choose_spec]

theorem tag_of_mem_createTag {t : String} {c : Option JsVal} {e : Element}
    (he : e ∈ createTagInParentElement t c) : e.tag = t := by
  cases c with
  | none => simp [createTagInParentElement] at he
  | some v =>
    simp [createTagInParentElement] at he; subst he; rfl

/-! ## Claim theorems -/

/-- Claim C1: for every input and options value, the children of the
`gpx` root are ordered metadata-first (when configured), then every
`wpt`, then every `trk`; within the `wpt` and `trk` groups the relative
order matches the order of the input feature traversal (the
concatenation, in input order, of each feature's contributions). -/
theorem root_children_ordered (g : GeoJson) (options : Option Options)
    (features : List Feature) :
    ∃ metaPart : List Element,
      (GeoJsonToGpx g options).root.children =
        metaPart ++ (collectFeatures g).1 ++ (collectFeatures g).2 ∧
      (∀ e ∈ metaPart, e.tag = "metadata") ∧
      (∀ e ∈ (collectFeatures g).1, e.tag = "wpt") ∧
      (∀ e ∈ (collectFeatures g).2, e.tag = "trk") ∧
      collectFeatures (.featureCollection features) =
        ((features.map fun f => (interpretFeature f).1).flatten,
         (features.map fun f => (interpretFeature f).2).flatten) := by
  have hw : ∀ e ∈ (collectFeatures g).1, e.tag = "wpt" := fun e he =>
    wpt_tag_of_mem (mem_collect_wpts he).choose_spec
  have ht : ∀ e ∈ (collectFeatures g).2, e.tag = "trk" := fun e he =>
    trk_tag_of_mem (mem_collect_trks he).choose_spec
  rcases options with _ | ⟨c, v, m⟩
  · exact ⟨[], rfl, by simp, hw, ht,
      collectFeatures_featureCollection features⟩
  · cases m with
    | none =>
      exact ⟨[], rfl, by simp, hw, ht,
        collectFeatures_featureCollection features⟩
    | some meta =>
      refine ⟨[buildMetadata meta], rfl, ?_, hw, ht,
        collectFeatures_featureCollection features⟩
      intro e he
      rw [List.mem_singleton] at he
      subst he
      rfl

/-- Concrete instantiation of `root_children_ordered`. -/
theorem root_children_ordered_witness :
    ∃ metaPart : List Element,
      (GeoJsonToGpx
        (.featureCollection
          [⟨.lineString [[0, 0], [1, 1]], none⟩, ⟨.point [5, 6], none⟩])
        (some { metadata := some { name := some "m" } })).root.children =
        metaPart ++
          (collectFeatures
            (.featureCollection
              [⟨.lineString [[0, 0], [1, 1]], none⟩,
               ⟨.point [5, 6], none⟩])).1 ++
          (collectFeatures
            (.featureCollection
              [⟨.lineString [[0, 0], [1, 1]], none⟩,
               ⟨.point [5, 6], none⟩])).2 ∧
      (∀ e ∈ metaPart, e.tag = "metadata") ∧
      (∀ e ∈ (collectFeatures
          (.featureCollection
            [⟨.lineString [[0, 0], [1, 1]], none⟩,
             ⟨.point [5, 6], none⟩])).1, e.tag = "wpt") ∧
      (∀ e ∈ (collectFeatures
          (.featureCollection
            [⟨.lineString [[0, 0], [1, 1]], none⟩,
             ⟨.point [5, 6], none⟩])).2, e.tag = "trk") ∧
      collectFeatures
          (.featureCollection
            [⟨.lineString [[0, 0], [1, 1]], none⟩, ⟨.point [5, 6], none⟩]) =
        (([⟨.lineString [[0, 0], [1, 1]], none⟩,
           (⟨.point [5, 6], none⟩ : Feature)].map
            fun f => (interpretFeature f).1).flatten,
         ([⟨.lineString [[0, 0], [1, 1]], none⟩,
           (⟨.point [5, 6], none⟩ : Feature)].map
            fun f => (interpretFeature f).2).flatten) :=
  root_children_ordered
    (.featureCollection
      [⟨.lineString [[0, 0], [1, 1]], none⟩, ⟨.point [5, 6], none⟩])
    (some { metadata := some { name := some "m" } })
    [⟨.lineString [[0, 0], [1, 1]], none⟩, ⟨.point [5, 6], none⟩]

theorem ele_iff_createPt (ty : String) (pos : Position)
    (props : GeoJsonProperties) :
    (∃ c ∈ (createPt ty pos props).children, c.tag = "ele") ↔
      (pos.get? 2).isSome := by
  constructor
  · rintro ⟨c, hc, htag⟩
    simp only [createPt, Element.children] at hc
    rcases List.mem_append.mp hc with hc1 | hc2
    · rcases List.mem_append.mp hc1 with hce | hct
      · cases h2 : pos.get? 2 with
        | none => rw [h2] at hce; simp [createTagInParentElement] at hce
        | some n => rfl
      · have := tag_of_mem_createTag hct
        rw [htag] at this
        exact absurd this (by decide)
    · have := mem_addSupported hc2
      rw [htag] at this
      exact absurd this (by decide)
  · intro h
    obtain ⟨n, hn⟩ := Option.isSome_iff_exists.mp h
    refine ⟨Element.mk "ele" [] [] (some (toString n)), ?_, rfl⟩
    simp only [createPt, Element.children]
    apply List.mem_append_left
    apply List.mem_append_left
    rw [hn]
    simp [createTagInParentElement, JsVal.toJsString]

theorem time_iff_createPt (ty : String) (pos : Position)
    (props : GeoJsonProperties) :
    (∃ c ∈ (createPt ty pos props).children, c.tag = "time") ↔
      (pos.get? 3).isSome := by
  constructor
  · rintro ⟨c, hc, htag⟩
    simp only [createPt, Element.children] at hc
    rcases List.mem_append.mp hc with hc1 | hc2
    · rcases List.mem_append.mp hc1 with hce | hct
      · have := tag_of_mem_createTag hce
        rw [htag] at this
        exact absurd this (by decide)
      · cases h3 : pos.get? 3 with
        | none => rw [h3] at hct; simp [createTagInParentElement] at hct
        | some n => rfl
    · have := mem_addSupported hc2
      rw [htag] at this
      exact absurd this (by decide)
  · intro h
    obtain ⟨n, hn⟩ := Option.isSome_iff_exists.mp h
    refine ⟨Element.mk "time" [] [] (some (toString n)), ?_, rfl⟩
    simp only [createPt, Element.children]
    apply List.mem_append_left
    apply List.mem_append_right
    rw [hn]
    simp [createTagInParentElement, JsVal.toJsString]

/-- Claim C2: a `Point` feature yields exactly one `wpt` (lat from the
second coordinate component, lon from the first, `ele` leaf iff a third
component is present, `time` leaf iff a fourth is present) and zero
`trk` elements; a `MultiPoint` feature with N coordinates yields exactly
N `wpt` elements, one per coordinate in input order, each built from the
same feature-level properties, and zero `trk` elements. -/
theorem point_multipoint_wpts (lon lat : Int) (rest : List Int)
    (props : GeoJsonProperties) (coords : List Position) :
    (∃ e : Element,
      interpretFeature ⟨.point (lon :: lat :: rest), props⟩ = ([e], []) ∧
      e.tag = "wpt" ∧
      e.getAttr "lat" = some (toString lat) ∧
      e.getAttr "lon" = some (toString lon) ∧
      ((∃ c ∈ e.children, c.tag = "ele") ↔ (rest.get? 0).isSome) ∧
      ((∃ c ∈ e.children, c.tag = "time") ↔ (rest.get? 1).isSome)) ∧
    interpretFeature ⟨.multiPoint coords, props⟩ =
      (coords.map fun c => createPt "wpt" c props, []) ∧
    (interpretFeature ⟨.multiPoint coords, props⟩).1.length =
      coords.length := by
  refine ⟨⟨createPt "wpt" (lon :: lat :: rest) props, rfl, rfl, rfl, rfl,
    ?_, ?_⟩, rfl, by simp [interpretFeature]⟩
  · exact ele_iff_createPt "wpt" (lon :: lat :: rest) props
  · exact time_iff_createPt "wpt" (lon :: lat :: rest) props

/-- Concrete instantiation of `point_multipoint_wpts`. -/
theorem point_multipoint_wpts_witness :
    (∃ e : Element,
      interpretFeature ⟨.point ([3] ++ [4] ++ [7]), some []⟩ = ([e], []) ∧
      e.tag = "wpt" ∧
      e.getAttr "lat" = some (toString (4 : Int)) ∧
      e.getAttr "lon" = some (toString (3 : Int)) ∧
      ((∃ c ∈ e.children, c.tag = "ele") ↔
        (([7] : List Int).get? 0).isSome) ∧
      ((∃ c ∈ e.children, c.tag = "time") ↔
        (([7] : List Int).get? 1).isSome)) ∧
    interpretFeature ⟨.multiPoint [[1, 2], [3, 4]], some []⟩ =
      (([[1, 2], [3, 4]] : List Position).map
        fun c => createPt "wpt" c (some []), []) ∧
    (interpretFeature ⟨.multiPoint [[1, 2], [3, 4]], some []⟩).1.length =
      ([[1, 2], [3, 4]] : List Position).length :=
  point_multipoint_wpts 3 4 [7] (some []) [[1, 2], [3, 4]]

theorem filter_trkseg_addSupported (supports : List String)
    (props : GeoJsonProperties) (h : "trkseg" ∉ supports) :
    (addSupportedPropertiesFromObject supports props).filter
      (fun c => c.tag == "trkseg") = [] := by
  rw [List.filter_eq_nil_iff]
  intro e he
  have ht := mem_addSupported he
  simp only [beq_iff_eq]
  intro h2
  exact h (h2 ▸ ht)

theorem trkpt_children_tags {ty : String} {p : Position} {ch : Element}
    (hch : ch ∈ (createPt ty p none).children) :
    ch.tag = "ele" ∨ ch.tag = "time" := by
  simp only [createPt, Element.children] at hch
  rcases List.mem_append.mp hch with h1 | h2
  · rcases List.mem_append.mp h1 with he | ht
    · exact Or.inl (tag_of_mem_createTag he)
    · exact Or.inr (tag_of_mem_createTag ht)
  · simp [addSupportedPropertiesFromObject] at h2

/-- Claim C3: a `LineString` feature yields exactly one `trk` with
exactly one `trkseg` child whose `trkpt` children are one per
coordinate, in order, carrying no copied properties; a
`MultiLineString` feature with M position-arrays yields exactly one
`trk` with exactly M `trkseg` children in input order, each `trkseg`'s
`trkpt` count equalling the corresponding sub-array's length. -/
theorem linestring_multilinestring_trks (coords : List Position)
    (coordss : List (List Position)) (props : GeoJsonProperties) :
    (∃ trk : Element,
      interpretFeature ⟨.lineString coords, props⟩ = ([], [trk]) ∧
      trk.tag = "trk" ∧
      trk.children.filter (fun c => c.tag == "trkseg") =
        [createTrkSeg coords] ∧
      (createTrkSeg coords).children =
        coords.map (fun p => createPt "trkpt" p none) ∧
      (createTrkSeg coords).children.length = coords.length ∧
      (∀ c ∈ (createTrkSeg coords).children, c.tag = "trkpt" ∧
        ∀ ch ∈ c.children, ch.tag = "ele" ∨ ch.tag = "time")) ∧
    (∃ trk : Element,
      interpretFeature ⟨.multiLineString coordss, props⟩ = ([], [trk]) ∧
      trk.tag = "trk" ∧
      trk.children.filter (fun c => c.tag == "trkseg") =
        coordss.map createTrkSeg ∧
      (coordss.map createTrkSeg).length = coordss.length ∧
      (coordss.map createTrkSeg).map (fun s => s.children.length) =
        coordss.map List.length) := by
  constructor
  · refine ⟨(createTrk props).appendChildren [createTrkSeg coords],
      rfl, rfl, ?_, rfl, by simp [createTrkSeg, Element.children], ?_⟩
    · show ((addSupportedPropertiesFromObject
          ["name", "desc", "src", "type"] props) ++
          [createTrkSeg coords]).filter (fun c => c.tag == "trkseg") = _
      rw [List.filter_append,
        filter_trkseg_addSupported _ _ (by decide)]
      rfl
    · intro c hc
      simp only [createTrkSeg, Element.children] at hc
      obtain ⟨p, _, rfl⟩ := List.mem_map.mp hc
      exact ⟨rfl, fun ch hch => trkpt_children_tags hch⟩
  · refine ⟨(createTrk props).appendChildren (coordss.map createTrkSeg),
      rfl, rfl, ?_, by simp, ?_⟩
    · show ((addSupportedPropertiesFromObject
          ["name", "desc", "src", "type"] props) ++
          coordss.map createTrkSeg).filter (fun c => c.tag == "trkseg") = _
      rw [List.filter_append,
        filter_trkseg_addSupported _ _ (by decide), List.nil_append]
      rw [List.filter_eq_self]
      intro e he
      obtain ⟨p, _, rfl⟩ := List.mem_map.mp he
      rfl
    · rw [List.map_map]
      apply List.map_congr_left
      intro p _
      simp [createTrkSeg, Element.children]

/-- Concrete instantiation of `linestring_multilinestring_trks`. -/
theorem linestring_multilinestring_trks_witness :
    (∃ trk : Element,
      interpretFeature ⟨.lineString [[0, 0], [1, 1]], some []⟩ =
        ([], [trk]) ∧
      trk.tag = "trk" ∧
      trk.children.filter (fun c => c.tag == "trkseg") =
        [createTrkSeg [[0, 0], [1, 1]]] ∧
      (createTrkSeg [[0, 0], [1, 1]]).children =
        ([[0, 0], [1, 1]] : List Position).map
          (fun p => createPt "trkpt" p none) ∧
      (createTrkSeg [[0, 0], [1, 1]]).children.length =
        ([[0, 0], [1, 1]] : List Position).length ∧
      (∀ c ∈ (createTrkSeg [[0, 0], [1, 1]]).children, c.tag = "trkpt" ∧
        ∀ ch ∈ c.children, ch.tag = "ele" ∨ ch.tag = "time")) ∧
    (∃ trk : Element,
      interpretFeature ⟨.multiLineString [[[0, 0]], [[1, 1], [2, 2]]],
        some []⟩ = ([], [trk]) ∧
      trk.tag = "trk" ∧
      trk.children.filter (fun c => c.tag == "trkseg") =
        ([[[0, 0]], [[1, 1], [2, 2]]] : List (List Position)).map
          createTrkSeg ∧
      (([[[0, 0]], [[1, 1], [2, 2]]] : List (List Position)).map
        createTrkSeg).length =
        ([[[0, 0]], [[1, 1], [2, 2]]] : List (List Position)).length ∧
      (([[[0, 0]], [[1, 1], [2, 2]]] : List (List Position)).map
        createTrkSeg).map (fun s => s.children.length) =
        ([[[0, 0]], [[1, 1], [2, 2]]] : List (List Position)).map
          List.length) :=
  linestring_multilinestring_trks [[0, 0], [1, 1]]
    [[[0, 0]], [[1, 1], [2, 2]]] (some [])

/-- Claim C4: the conversion is total — it always returns a document with
a `gpx` root; `Polygon` features and unrecognized geometry types
contribute zero `wpt` and zero `trk` elements without altering the
contributions of the other features in the same collection; and a
top-level input that is neither a `Feature` nor a `FeatureCollection`
yields a root with no `wpt` or `trk` children. -/
theorem conversion_total_skips_unsupported (g : GeoJson)
    (options : Option Options) (fs1 fs2 : List Feature)
    (coordsPoly : List (List Position)) (props : GeoJsonProperties) :
    (GeoJsonToGpx g options).root.tag = "gpx" ∧
    interpretFeature ⟨.polygon coordsPoly, props⟩ = ([], []) ∧
    interpretFeature ⟨.otherGeom, props⟩ = ([], []) ∧
    collectFeatures (.featureCollection
      (fs1 ++ ⟨.polygon coordsPoly, props⟩ :: fs2)) =
      collectFeatures (.featureCollection (fs1 ++ fs2)) ∧
    collectFeatures (.featureCollection
      (fs1 ++ ⟨.otherGeom, props⟩ :: fs2)) =
      collectFeatures (.featureCollection (fs1 ++ fs2)) ∧
    (GeoJsonToGpx .otherInput options).root.children.filter
      (fun e => e.tag == "wpt" || e.tag == "trk") = [] := by
  refine ⟨rfl, rfl, rfl, ?_, ?_, ?_⟩
  · rw [collectFeatures_featureCollection, collectFeatures_featureCollection]
    simp [interpretFeature]
  · rw [collectFeatures_featureCollection, collectFeatures_featureCollection]
    simp [interpretFeature]
  · rcases options with _ | ⟨c, v, m⟩
    · rfl
    · cases m with
      | none => rfl
      | some meta => rfl

/-- Concrete instantiation of `conversion_total_skips_unsupported`. -/
theorem conversion_total_skips_unsupported_witness :
    (GeoJsonToGpx (.feature ⟨.point [1, 2], none⟩) none).root.tag = "gpx" ∧
    interpretFeature ⟨.polygon [[[0, 0]]], none⟩ = ([], []) ∧
    interpretFeature ⟨.otherGeom, none⟩ = ([], []) ∧
    collectFeatures (.featureCollection
      ([⟨.point [1, 2], none⟩] ++ ⟨.polygon [[[0, 0]]], none⟩ ::
        [⟨.lineString [[3, 4]], none⟩])) =
      collectFeatures (.featureCollection
        ([⟨.point [1, 2], none⟩] ++ [⟨.lineString [[3, 4]], none⟩])) ∧
    collectFeatures (.featureCollection
      ([⟨.point [1, 2], none⟩] ++ ⟨.otherGeom, none⟩ ::
        [⟨.lineString [[3, 4]], none⟩])) =
      collectFeatures (.featureCollection
        ([⟨.point [1, 2], none⟩] ++ [⟨.lineString [[3, 4]], none⟩])) ∧
    (GeoJsonToGpx .otherInput none).root.children.filter
      (fun e => e.tag == "wpt" || e.tag == "trk") = [] :=
  conversion_total_skips_unsupported (.feature ⟨.point [1, 2], none⟩) none
    [⟨.point [1, 2], none⟩] [⟨.lineString [[3, 4]], none⟩] [[[0, 0]]] none

theorem link_children_tags {lnk : Link} {e : Element}
    (he : e ∈ createLinkInParentElement lnk) {c : Element}
    (hc : c ∈ e.children) : c.tag ∈ ["text", "type"] := by
  rcases lnk with ⟨href, t, ty⟩
  cases href with
  | none => simp [createLinkInParentElement] at he
  | some h =>
    by_cases hh : h = ""
    · simp [createLinkInParentElement, hh] at he
    · simp [createLinkInParentElement, hh] at he
      subst he
      rw [Element.children] at hc
      exact mem_addSupported hc

/-- Claim C5: only keys of the fixed per-context whitelist (`name`,
`desc`, `src`, `type` for wpt/trkpt/trk; `text`, `type` for link) are
ever copied as leaf children, every key outside the whitelist is
ignored, a whitelisted key with a non-string value produces no leaf,
and an absent (`null`/`undefined`) property bag produces no property
leaves while the element itself is still created. -/
theorem property_whitelist_enforced (supports : List String) (bag : Bag)
    (k : String) (v : PropValue) (props : GeoJsonProperties)
    (ty : String) (pos : Position) (lnk : Link) :
    (∀ e ∈ addSupportedPropertiesFromObject supports (some bag),
      e.tag ∈ supports ∧ ∃ s : String,
        bag.lookup e.tag = some (.str s) ∧ s ≠ "" ∧
        e = Element.mk e.tag [] [] (some s)) ∧
    (bag.lookup k = some v → v.isString = false →
      ∀ e ∈ addSupportedPropertiesFromObject supports (some bag),
        e.tag ≠ k) ∧
    addSupportedPropertiesFromObject supports none = [] ∧
    (∀ c ∈ (createTrk props).children,
      c.tag ∈ ["name", "desc", "src", "type"]) ∧
    (∀ c ∈ (createPt ty pos props).children,
      c.tag ∈ ["ele", "time", "name", "desc", "src", "type"]) ∧
    (∀ e ∈ createLinkInParentElement lnk, ∀ c ∈ e.children,
      c.tag ∈ ["text", "type"]) ∧
    createTrk none = Element.mk "trk" [] [] none ∧
    (createPt ty pos none).children.filter
      (fun c => c.tag == "name" || c.tag == "desc" || c.tag == "src" ||
        c.tag == "type") = [] := by
  refine ⟨fun e he => mem_copySupportedProperties he, ?_, rfl, ?_, ?_,
    fun e he c hc => link_children_tags he hc, rfl, ?_⟩
  · intro hL hNS e he hk
    obtain ⟨_, s, hs, _, _⟩ := mem_copySupportedProperties he
    rw [hk, hL] at hs
    cases Option.some.inj hs
    simp [PropValue.isString] at hNS
  · intro c hc
    exact mem_addSupported hc
  · intro c hc
    simp only [createPt, Element.children] at hc
    rcases List.mem_append.mp hc with h1 | h2
    · rcases List.mem_append.mp h1 with he | ht
      · simp [tag_of_mem_createTag he]
      · simp [tag_of_mem_createTag ht]
    · have := mem_addSupported h2
      simp at this ⊢
      tauto
  · rw [List.filter_eq_nil_iff]
    intro c hc
    rcases trkpt_children_tags hc with h | h <;> simp [h]

/-- Concrete instantiation of `property_whitelist_enforced`. -/
theorem property_whitelist_enforced_witness :
    (∀ e ∈ addSupportedPropertiesFromObject ["name", "desc", "src", "type"]
        (some [("name", .str "N"), ("desc", .num 2), ("other", .str "x")]),
      e.tag ∈ ["name", "desc", "src", "type"] ∧ ∃ s : String,
        ([("name", .str "N"), ("desc", .num 2),
          ("other", .str "x")] : Bag).lookup e.tag = some (.str s) ∧
        s ≠ "" ∧ e = Element.mk e.tag [] [] (some s)) ∧
    (([("name", .str "N"), ("desc", .num 2),
        ("other", .str "x")] : Bag).lookup "desc" = some (.num 2) →
      (PropValue.num 2).isString = false →
      ∀ e ∈ addSupportedPropertiesFromObject ["name", "desc", "src", "type"]
          (some [("name", .str "N"), ("desc", .num 2), ("other", .str "x")]),
        e.tag ≠ "desc") ∧
    addSupportedPropertiesFromObject ["name", "desc", "src", "type"]
      none = [] ∧
    (∀ c ∈ (createTrk (some [("name", .str "N"), ("desc", .num 2),
        ("other", .str "x")])).children,
      c.tag ∈ ["name", "desc", "src", "type"]) ∧
    (∀ c ∈ (createPt "wpt" [1, 2] (some [("name", .str "N"),
        ("desc", .num 2), ("other", .str "x")])).children,
      c.tag ∈ ["ele", "time", "name", "desc", "src", "type"]) ∧
    (∀ e ∈ createLinkInParentElement
        { href := some "h", text := some "t" }, ∀ c ∈ e.children,
      c.tag ∈ ["text", "type"]) ∧
    createTrk none = Element.mk "trk" [] [] none ∧
    (createPt "wpt" [1, 2] none).children.filter
      (fun c => c.tag == "name" || c.tag == "desc" || c.tag == "src" ||
        c.tag == "type") = [] :=
  property_whitelist_enforced ["name", "desc", "src", "type"]
    [("name", .str "N"), ("desc", .num 2), ("other", .str "x")]
    "desc" (.num 2)
    (some [("name", .str "N"), ("desc", .num 2), ("other", .str "x")])
    "wpt" [1, 2] { href := some "h", text := some "t" }

theorem map_tag_linkChunk (L : Option Link) :
    (linkChunk L).map Element.tag = specLinkTags L := by
  cases L with
  | none => rfl
  | some l =>
    rcases l with ⟨href, t, ty⟩
    cases href with
    | none => rfl
    | some h =>
      by_cases hh : h = "" <;>
        simp [linkChunk, specLinkTags, createLinkInParentElement, hh,
          Element.tag]

theorem buildMetadata_tags (meta : MetaData) :
    (buildMetadata meta).children.map Element.tag =
      specMetadataChildTags meta := by
  rcases meta with ⟨nm, dsc, auth, cr, lnk, tm, kw, bnd⟩
  simp only [buildMetadata, Element.children, List.map_append,
    specMetadataChildTags, map_tag_linkChunk]
  cases nm <;> cases dsc <;> cases auth <;> cases cr <;> cases tm <;>
    cases kw <;> rfl

/-- Claim C6: with `options.metadata` an object, the document contains a
`metadata` element (appearing first among the root's children) whose
children appear in exactly the order `name`, `desc`, `author`,
`copyright`, `link`, `time`, `keywords`, each present exactly under the
stated condition on its source field; the `author` sub-element holds
`name`/`email` leaves and a `link` sub-element only for a link object
(with non-empty `href`); the `copyright` sub-element carries an `author`
attribute only when that field is defined (and non-empty) plus
`year`/`license` leaves; the `bounds` field never produces any output;
and without `options.metadata` no `metadata` element exists anywhere in
the document. -/
theorem metadata_assembly (g : GeoJson) (c v : Option String)
    (meta : MetaData) (person : Person) (cr : Copyright)
    (b : Option Bounds) :
    (GeoJsonToGpx g (some ⟨c, v, some meta⟩)).root.children.head? =
      some (buildMetadata meta) ∧
    (buildMetadata meta).children.map Element.tag =
      specMetadataChildTags meta ∧
    (∃ a ∈ (buildMetadata { meta with author := some person }).children,
      a.tag = "author" ∧
      a.children.map Element.tag =
        (match person.name with | some _ => ["name"] | none => []) ++
        (match person.email with | some _ => ["email"] | none => []) ++
        specLinkTags person.link) ∧
    (∃ ce ∈ (buildMetadata { meta with copyright := some cr }).children,
      ce.tag = "copyright" ∧
      ce.getAttr "author" =
        (match cr.author with
         | some a => if a ≠ "" then some a else none
         | none => none) ∧
      ce.children.map Element.tag =
        (match cr.year with | some _ => ["year"] | none => []) ++
        (match cr.license with | some _ => ["license"] | none => [])) ∧
    GeoJsonToGpx g (some ⟨c, v, some { meta with bounds := b }⟩) =
      GeoJsonToGpx g (some ⟨c, v, some { meta with bounds := none }⟩) ∧
    (GeoJsonToGpx g (some ⟨c, v, none⟩)).root.countTag "metadata" = 0 ∧
    (GeoJsonToGpx g none).root.countTag "metadata" = 0 := by
  refine ⟨rfl, buildMetadata_tags meta, ?_, ?_, ?_, ?_, ?_⟩
  · refine ⟨Element.mk "author" []
      (createTagInParentElement "name" (person.name.map JsVal.str) ++
       createTagInParentElement "email" (person.email.map JsVal.str) ++
       linkChunk person.link) none, ?_, rfl, ?_⟩
    · simp [buildMetadata, Element.children]
    · simp only [Element.children, List.map_append, map_tag_linkChunk]
      cases hn : person.name <;> cases he : person.email <;> rfl
  · refine ⟨Element.mk "copyright"
      (match cr.author with
       | some a => if a ≠ "" then [("author", a)] else []
       | none => [])
      (createTagInParentElement "year" (cr.year.map JsVal.str) ++
       createTagInParentElement "license" (cr.license.map JsVal.str))
      none, ?_, rfl, ?_, ?_⟩
    · simp [buildMetadata, Element.children]
    · rcases cr with ⟨ca, cy, cl⟩
      cases ca with
      | none => rfl
      | some a =>
        by_cases ha : a = "" <;>
          simp [Element.getAttr, Element.attrs, ha, List.lookup]
    · simp only [Element.children, List.map_append]
      cases cr.year <;> cases cr.license <;> rfl
  · rcases meta with ⟨nm, dsc, auth, crr, lnk, tm, kw, bnd⟩
    rfl
  · simp only [GeoJsonToGpx, countTag_mk, if_neg (by decide : ¬"gpx" = "metadata"),
      List.nil_append, Nat.zero_add]
    exact countTag_metadata_collect g
  · simp only [GeoJsonToGpx, countTag_mk, if_neg (by decide : ¬"gpx" = "metadata"),
      List.nil_append, Nat.zero_add]
    exact countTag_metadata_collect g

/-- Concrete instantiation of `metadata_assembly`. -/
theorem metadata_assembly_witness :
    (GeoJsonToGpx (.feature ⟨.point [1, 2], none⟩)
        (some ⟨some "c", none, some { name := some "n" }⟩)).root.children.head? =
      some (buildMetadata { name := some "n" }) ∧
    (buildMetadata { name := some "n" }).children.map Element.tag =
      specMetadataChildTags { name := some "n" } ∧
    (∃ a ∈ (buildMetadata { ({ name := some "n" } : MetaData) with
        author := some { email := some "e" } }).children,
      a.tag = "author" ∧
      a.children.map Element.tag =
        (match ({ email := some "e" } : Person).name with
         | some _ => ["name"] | none => []) ++
        (match ({ email := some "e" } : Person).email with
         | some _ => ["email"] | none => []) ++
        specLinkTags ({ email := some "e" } : Person).link) ∧
    (∃ ce ∈ (buildMetadata { ({ name := some "n" } : MetaData) with
        copyright := some { author := some "A", year := some "2024" } }).children,
      ce.tag = "copyright" ∧
      ce.getAttr "author" =
        (match ({ author := some "A", year := some "2024" } :
            Copyright).author with
         | some a => if a ≠ "" then some a else none
         | none => none) ∧
      ce.children.map Element.tag =
        (match ({ author := some "A", year := some "2024" } :
            Copyright).year with
         | some _ => ["year"] | none => []) ++
        (match ({ author := some "A", year := some "2024" } :
            Copyright).license with
         | some _ => ["license"] | none => [])) ∧
    GeoJsonToGpx (.feature ⟨.point [1, 2], none⟩)
        (some ⟨some "c", none, some { ({ name := some "n" } : MetaData) with
          bounds := some { minlat := some "0" } }⟩) =
      GeoJsonToGpx (.feature ⟨.point [1, 2], none⟩)
        (some ⟨some "c", none, some { ({ name := some "n" } : MetaData) with
          bounds := none }⟩) ∧
    (GeoJsonToGpx (.feature ⟨.point [1, 2], none⟩)
        (some ⟨some "c", none, none⟩)).root.countTag "metadata" = 0 ∧
    (GeoJsonToGpx (.feature ⟨.point [1, 2], none⟩)
        none).root.countTag "metadata" = 0 :=
  metadata_assembly (.feature ⟨.point [1, 2], none⟩) (some "c") none
    { name := some "n" } { email := some "e" }
    { author := some "A", year := some "2024" }
    (some { minlat := some "0" })

/-- Claim C7: the link factory produces a `link` element iff `href` is
non-empty — empty/undefined `href` yields nothing even when `text`/`type`
are set, and a non-empty `href` yields one `link` element carrying `href`
as an attribute plus `text`/`type` leaves exactly for those fields that
are non-empty strings. -/
theorem link_factory_href_gate (t ty : Option String) (h : String)
    (hne : h ≠ "") :
    createLinkInParentElement ⟨none, t, ty⟩ = [] ∧
    createLinkInParentElement ⟨some "", t, ty⟩ = [] ∧
    ∃ e : Element, createLinkInParentElement ⟨some h, t, ty⟩ = [e] ∧
      e.tag = "link" ∧ e.getAttr "href" = some h ∧
      e.children =
        (match t with
         | some s =>
             if s ≠ "" then [Element.mk "text" [] [] (some s)] else []
         | none => []) ++
        (match ty with
         | some s =>
             if s ≠ "" then [Element.mk "type" [] [] (some s)] else []
         | none => []) := by
  refine ⟨rfl, rfl, Element.mk "link" [("href", h)]
    (addSupportedPropertiesFromObject ["text", "type"]
      (some (Link.toBag ⟨some h, t, ty⟩))) none, ?_, rfl, rfl, ?_⟩
  · simp [createLinkInParentElement, hne]
  · show addSupportedPropertiesFromObject ["text", "type"]
      (some (Link.toBag ⟨some h, t, ty⟩)) = _
    rcases t with _ | s <;> rcases ty with _ | u
    · rfl
    · by_cases hu : u = "" <;>
        simp [Link.toBag, addSupportedPropertiesFromObject,
          copySupportedProperties, createTagInParentElement,
          PropValue.isTruthy, PropValue.isString, PropValue.asJsVal,
          JsVal.toJsString, List.lookup, hu]
    · by_cases hs : s = "" <;>
        simp [Link.toBag, addSupportedPropertiesFromObject,
          copySupportedProperties, createTagInParentElement,
          PropValue.isTruthy, PropValue.isString, PropValue.asJsVal,
          JsVal.toJsString, List.lookup, hs]
    · by_cases hs : s = "" <;> by_cases hu : u = "" <;>
        simp [Link.toBag, addSupportedPropertiesFromObject,
          copySupportedProperties, createTagInParentElement,
          PropValue.isTruthy, PropValue.isString, PropValue.asJsVal,
          JsVal.toJsString, List.lookup, hs, hu]

/-- Concrete instantiation of `link_factory_href_gate`. -/
theorem link_factory_href_gate_witness :
    createLinkInParentElement ⟨none, some "t", some ""⟩ = [] ∧
    createLinkInParentElement ⟨some "", some "t", some ""⟩ = [] ∧
    ∃ e : Element,
      createLinkInParentElement ⟨some "http://x", some "t", some ""⟩ =
        [e] ∧
      e.tag = "link" ∧ e.getAttr "href" = some "http://x" ∧
      e.children =
        (match (some "t" : Option String) with
         | some s =>
             if s ≠ "" then [Element.mk "text" [] [] (some s)] else []
         | none => []) ++
        (match (some "" : Option String) with
         | some s =>
             if s ≠ "" then [Element.mk "type" [] [] (some s)] else []
         | none => []) :=
  link_factory_href_gate (some "t") (some "") "http://x" (by decide)

/-- Claim C8: the `gpx` root always carries exactly one
`version="1.1"` attribute and exactly one `creator` attribute; with no
options the creator is the default library identifier and no `metadata`
element exists in the document. -/
theorem root_version_creator (g : GeoJson) (options : Option Options) :
    (GeoJsonToGpx g options).root.attrs.filter
      (fun p => p.1 == "version") = [("version", "1.1")] ∧
    ((GeoJsonToGpx g options).root.attrs.filter
      (fun p => p.1 == "creator")).length = 1 ∧
    (GeoJsonToGpx g none).root.getAttr "creator" =
      some defaultPackageName ∧
    (GeoJsonToGpx g none).root.countTag "metadata" = 0 := by
  refine ⟨rfl, rfl, rfl, ?_⟩
  simp only [GeoJsonToGpx, countTag_mk,
    if_neg (by decide : ¬"gpx" = "metadata"), List.nil_append,
    Nat.zero_add]
  exact countTag_metadata_collect g

/-- Concrete instantiation of `root_version_creator`. -/
theorem root_version_creator_witness :
    (GeoJsonToGpx .otherInput (some { creator := some "me" })).root.attrs.filter
      (fun p => p.1 == "version") = [("version", "1.1")] ∧
    ((GeoJsonToGpx .otherInput
        (some { creator := some "me" })).root.attrs.filter
      (fun p => p.1 == "creator")).length = 1 ∧
    (GeoJsonToGpx .otherInput none).root.getAttr "creator" =
      some defaultPackageName ∧
    (GeoJsonToGpx .otherInput none).root.countTag "metadata" = 0 :=
  root_version_creator .otherInput (some { creator := some "me" })

/-- Claim C9: the `version` field of `Options` is never read — two
options values differing only in `version` produce identical documents,
and the root's `version` attribute is the constant `"1.1"`. -/
theorem version_option_ignored (g : GeoJson) (c : Option String)
    (m : Option MetaData) (v1 v2 : Option String) :
    GeoJsonToGpx g (some ⟨c, v1, m⟩) = GeoJsonToGpx g (some ⟨c, v2, m⟩) ∧
    (GeoJsonToGpx g (some ⟨c, v1, m⟩)).root.getAttr "version" =
      some "1.1" :=
  ⟨rfl, rfl⟩

/-- Concrete instantiation of `version_option_ignored`. -/
theorem version_option_ignored_witness :
    GeoJsonToGpx (.feature ⟨.point [1, 2], none⟩)
        (some ⟨some "c", some "0.9", none⟩) =
      GeoJsonToGpx (.feature ⟨.point [1, 2], none⟩)
        (some ⟨some "c", some "7.7", none⟩) ∧
    (GeoJsonToGpx (.feature ⟨.point [1, 2], none⟩)
        (some ⟨some "c", some "0.9", none⟩)).root.getAttr "version" =
      some "1.1" :=
  version_option_ignored (.feature ⟨.point [1, 2], none⟩) (some "c")
    none (some "0.9") (some "7.7")

/-- Claim C10: a whitelisted property key whose value is the empty
string produces no leaf (copying requires a truthy, string-typed value),
including the `text` and `type` fields of a `Link`; an empty tag is
never produced. -/
theorem empty_string_values_dropped (supports : List String) (bag : Bag)
    (k : String) (h : String) (ty : Option String) (hne : h ≠ "") :
    (bag.lookup k = some (.str "") →
      ∀ e ∈ addSupportedPropertiesFromObject supports (some bag),
        e.tag ≠ k) ∧
    (∀ e ∈ createLinkInParentElement ⟨some h, some "", ty⟩,
      ∀ c ∈ e.children, c.tag ≠ "text") ∧
    (∀ e ∈ createLinkInParentElement ⟨some h, ty, some ""⟩,
      ∀ c ∈ e.children, c.tag ≠ "type") := by
  refine ⟨?_, ?_, ?_⟩
  · intro hL e he hk
    obtain ⟨_, s, hs, hsne, _⟩ := mem_copySupportedProperties he
    rw [hk, hL] at hs
    cases Option.some.inj hs
    exact hsne rfl
  · intro e he c hc hct
    simp [createLinkInParentElement, hne] at he
    subst he
    rw [Element.children] at hc
    obtain ⟨_, s, hs, hsne, _⟩ := mem_copySupportedProperties hc
    rw [hct] at hs
    have hlook : (Link.toBag ⟨some h, some "", ty⟩).lookup "text" =
        some (.str "") := rfl
    rw [hlook] at hs
    cases Option.some.inj hs
    exact hsne rfl
  · intro e he c hc hct
    simp [createLinkInParentElement, hne] at he
    subst he
    rw [Element.children] at hc
    obtain ⟨_, s, hs, hsne, _⟩ := mem_copySupportedProperties hc
    rw [hct] at hs
    have hlook : (Link.toBag ⟨some h, ty, some ""⟩).lookup "type" =
        some (.str "") := by
      cases ty <;> rfl
    rw [hlook] at hs
    cases Option.some.inj hs
    exact hsne rfl

/-- Concrete instantiation of `empty_string_values_dropped`. -/
theorem empty_string_values_dropped_witness :
    (([("desc", PropValue.str "")] : Bag).lookup "desc" =
        some (.str "") →
      ∀ e ∈ addSupportedPropertiesFromObject ["name", "desc", "src", "type"]
          (some [("desc", PropValue.str "")]),
        e.tag ≠ "desc") ∧
    (∀ e ∈ createLinkInParentElement
        ⟨some "http://x", some "", some "tt"⟩,
      ∀ c ∈ e.children, c.tag ≠ "text") ∧
    (∀ e ∈ createLinkInParentElement
        ⟨some "http://x", some "tt", some ""⟩,
      ∀ c ∈ e.children, c.tag ≠ "type") :=
  empty_string_values_dropped ["name", "desc", "src", "type"]
    [("desc", PropValue.str "")] "desc" "http://x" (some "tt")
    (by decide)

end Gpx
